import Mathlib

/-!
Verification development for the Solana-Voting repository.

The service layer (`app/server/services/solana.service.ts`,
`app/server/routes/api.routes.ts`, `app/server/middleware/errorHandler.ts`)
is embedded directly from the TypeScript source.  The on-chain Anchor
program `programs/solana_voting/src/lib.rs` is not part of the available
sources; its state machine is modelled from the specification (and the
repository README's error-code table and PDA description), with every such
definition marked `Modelled from the spec:` in its doc comment.

Addresses: `PublicKey.findProgramAddressSync(seeds, programId)` is an
external collision-resistant hash over the concatenated seed bytes (plus
the fixed program id).  We model an address as the concatenated seed byte
list itself, which identifies the hash input; the fixed program id suffix
is common to every derivation and is omitted.
-/

deriving instance DecidableEq for Except

namespace SolVoting

/-- Little-endian 8-byte encoding of a poll id, embedding
`new BN(pollId)` together with `bn.toArrayLike(Buffer, "le", 8)` from
`solana.service.ts` (`toArrayLike` throws unless the value fits in the
requested 8 bytes, hence the `pollId < 2^64` hypotheses downstream). -/
def leBytes8 (n : Nat) : List Nat :=
  [n % 256, n / 256 % 256, n / 256 ^ 2 % 256, n / 256 ^ 3 % 256,
   n / 256 ^ 4 % 256, n / 256 ^ 5 % 256, n / 256 ^ 6 % 256, n / 256 ^ 7 % 256]

/-- The byte decoding inverse to `leBytes8`, used to prove injectivity. -/
def decodeLE8 (l : List Nat) : Nat :=
  match l with
  | [b0, b1, b2, b3, b4, b5, b6, b7] =>
      b0 + 256 * b1 + 256 ^ 2 * b2 + 256 ^ 3 * b3 + 256 ^ 4 * b4 +
        256 ^ 5 * b5 + 256 ^ 6 * b6 + 256 ^ 7 * b7
  | _ => 0

/-- The seed `Buffer.from("poll")` (ASCII bytes of `"poll"`). -/
def pollSeedTag : List Nat := [112, 111, 108, 108]

/-- The seed `Buffer.from("vote")` (ASCII bytes of `"vote"`). -/
def voteSeedTag : List Nat := [118, 111, 116, 101]

/-- `getPollPDA` from `solana.service.ts`: the poll account address is
derived from the seeds `["poll", pollId as u64 LE]`. -/
def getPollPDA (pollId : Nat) : List Nat :=
  pollSeedTag ++ leBytes8 pollId

/-- `getVoteRecordPDA` from `solana.service.ts`: the vote-record account
address is derived from the seeds `["vote", pollId as u64 LE, voter]`,
where `voter` is the voter's 32-byte public key. -/
def getVoteRecordPDA (pollId : Nat) (voter : List Nat) : List Nat :=
  voteSeedTag ++ leBytes8 pollId ++ voter

/-- One poll candidate: `{ name, votes }` in the account schema (the spec
calls the count `voteCount`). -/
structure Candidate where
  name : String
  voteCount : Nat
deriving DecidableEq

/-- The Poll account (spec section 3; fields as in `PollInfo` of
`solana.service.ts`). -/
structure Poll where
  admin : List Nat
  pollId : Nat
  title : String
  candidates : List Candidate
  totalVotes : Nat
  isActive : Bool
deriving DecidableEq

/-- The VoteRecord account (spec section 3; fields as in `VoteRecordInfo`
of `solana.service.ts`). -/
structure VoteRecord where
  voter : List Nat
  pollId : Nat
  candidateIndex : Nat
deriving DecidableEq

/-- Modelled from the spec: the ledger is an address-keyed store of Poll
and VoteRecord accounts ("an external append-only, address-keyed store
with atomic multi-address transactions", spec section 9).  Keys are the
derived addresses. -/
structure Ledger where
  polls : List (List Nat × Poll)
  voteRecords : List (List Nat × VoteRecord)
deriving DecidableEq

/-- Association-list lookup by address (first match wins, as in an
address-keyed store). -/
def lookupKey {α : Type} (l : List (List Nat × α)) (k : List Nat) : Option α :=
  match l with
  | [] => none
  | (k', v) :: t => if k' = k then some v else lookupKey t k

/-- Pointwise update of the poll stored at address `k` (entry-wise map
that rewrites the value at `k` and keeps every other entry). -/
def updatePoll : List (List Nat × Poll) → List Nat → (Poll → Poll) →
    List (List Nat × Poll)
  | [], _, _ => []
  | (a, p) :: t, k, f =>
    (if a = k then (a, f p) else (a, p)) :: updatePoll t k f

/-- The domain error kinds of the spec's error taxonomy (section 7) that
the on-chain transitions can produce (README error-code table 6000-6005
plus the account-uniqueness rejections). -/
inductive TxError where
  | DuplicatePollId
  | PollNotFound
  | PollClosed
  | InvalidCandidate
  | AlreadyVoted
  | Unauthorized
  | TooFewCandidates
  | TooManyCandidates
  | TitleTooLong
deriving DecidableEq

/-- Sum of the candidates' vote counts. -/
def sumVotes (cs : List Candidate) : Nat :=
  (cs.map (·.voteCount)).sum

/-- Increment the vote count of the candidate at index `i`. -/
def incAt : List Candidate → Nat → List Candidate
  | [], _ => []
  | c :: cs, 0 => { c with voteCount := c.voteCount + 1 } :: cs
  | c :: cs, n + 1 => c :: incAt cs n

/-- Modelled from the spec: the on-chain `create_poll` instruction
(`programs/solana_voting/src/lib.rs` is not in the sources).  Per the
README, the Poll account is created with Anchor's `init` constraint at
`getPollPDA pollId` — account validation fails first if the address is
already in use (`DuplicatePollId`) — and the handler enforces the
candidate-count and title-length bounds of the README error-code table;
the fresh poll starts with every count at zero and `isActive = true`
(spec section 4.2). -/
def ledgerCreatePoll (σ : Ledger) (admin : List Nat) (pollId : Nat)
    (title : String) (names : List String) : Except TxError Ledger :=
  match lookupKey σ.polls (getPollPDA pollId) with
  | some _ => .error .DuplicatePollId
  | none =>
    if names.length < 2 then .error .TooFewCandidates
    else if names.length > 10 then .error .TooManyCandidates
    else if title.length > 100 then .error .TitleTooLong
    else .ok { σ with
      polls := (getPollPDA pollId,
        { admin := admin, pollId := pollId, title := title,
          candidates := names.map (fun n => { name := n, voteCount := 0 }),
          totalVotes := 0, isActive := true }) :: σ.polls }

/-- Modelled from the spec: the on-chain `vote` instruction
(`programs/solana_voting/src/lib.rs` is not in the sources).  Anchor
account validation runs in struct order before the handler body: the Poll
account must deserialize (`PollNotFound`), then the VoteRecord is created
with `init` — per the README, "if a wallet tries to vote again, the
`init` constraint fails because the account already exists", surfaced as
`AlreadyVoted` — and only then does the handler check `isActive`
(`PollClosed`) and the candidate index bound (`InvalidCandidate`).  On
success the VoteRecord is created and exactly one candidate count plus
`totalVotes` are incremented, atomically (spec section 4.2). -/
def ledgerVote (σ : Ledger) (pollId : Nat) (voter : List Nat) (ci : Nat) :
    Except TxError Ledger :=
  match lookupKey σ.polls (getPollPDA pollId) with
  | none => .error .PollNotFound
  | some p =>
    match lookupKey σ.voteRecords (getVoteRecordPDA pollId voter) with
    | some _ => .error .AlreadyVoted
    | none =>
      if p.isActive = false then .error .PollClosed
      else if ci < p.candidates.length then
        .ok { polls := updatePoll σ.polls (getPollPDA pollId)
                (fun q => { q with candidates := incAt q.candidates ci,
                                   totalVotes := q.totalVotes + 1 }),
              voteRecords := (getVoteRecordPDA pollId voter,
                { voter := voter, pollId := pollId, candidateIndex := ci })
                :: σ.voteRecords }
      else .error .InvalidCandidate

/-- Modelled from the spec: the on-chain `close_poll` instruction
(`programs/solana_voting/src/lib.rs` is not in the sources).  The poll
must exist and the caller must be its admin (`Unauthorized`); the effect
is `isActive := false`.  Closing an already-closed poll is modelled as
the spec's observably idempotent no-op success. -/
def ledgerClosePoll (σ : Ledger) (pollId : Nat) (caller : List Nat) :
    Except TxError Ledger :=
  match lookupKey σ.polls (getPollPDA pollId) with
  | none => .error .PollNotFound
  | some p =>
    if caller = p.admin then
      .ok { σ with
        polls := updatePoll σ.polls (getPollPDA pollId)
          (fun q => { q with isActive := false }) }
    else .error .Unauthorized

/-- Submitting a vote transaction: on rejection the ledger state is
unchanged (all-or-nothing application, spec section 5). -/
def submitVote (σ : Ledger) (pollId : Nat) (voter : List Nat) (ci : Nat) :
    Ledger :=
  match ledgerVote σ pollId voter ci with
  | .ok σ' => σ'
  | .error _ => σ

/-- Submitting a create-poll transaction; rejection leaves the state
unchanged. -/
def submitCreate (σ : Ledger) (admin : List Nat) (pollId : Nat)
    (title : String) (names : List String) : Ledger :=
  match ledgerCreatePoll σ admin pollId title names with
  | .ok σ' => σ'
  | .error _ => σ

/-- Submitting a close-poll transaction; rejection leaves the state
unchanged. -/
def submitClose (σ : Ledger) (pollId : Nat) (caller : List Nat) : Ledger :=
  match ledgerClosePoll σ pollId caller with
  | .ok σ' => σ'
  | .error _ => σ

/-- One successful ledger transaction.  Poll ids are JavaScript numbers
fed to `toArrayLike(Buffer, "le", 8)` (hence below `2 ^ 64`) and voters
are decoded 32-byte public keys. -/
inductive Step : Ledger → Ledger → Prop where
  | create (σ σ' : Ledger) (admin : List Nat) (pollId : Nat) (title : String)
      (names : List String) (hpid : pollId < 2 ^ 64)
      (h : ledgerCreatePoll σ admin pollId title names = .ok σ') : Step σ σ'
  | vote (σ σ' : Ledger) (pollId : Nat) (voter : List Nat) (ci : Nat)
      (hpid : pollId < 2 ^ 64) (hv : voter.length = 32)
      (h : ledgerVote σ pollId voter ci = .ok σ') : Step σ σ'
  | close (σ σ' : Ledger) (pollId : Nat) (caller : List Nat)
      (hpid : pollId < 2 ^ 64)
      (h : ledgerClosePoll σ pollId caller = .ok σ') : Step σ σ'

/-- The empty ledger: no polls, no vote records. -/
def emptyLedger : Ledger := { polls := [], voteRecords := [] }

/-- Zero or more successful ledger transactions. -/
abbrev Steps (σ σ' : Ledger) : Prop := Relation.ReflTransGen Step σ σ'

/-- A ledger state reachable by some sequence of successful
CreatePoll/Vote/ClosePoll transactions from the empty ledger. -/
abbrev Reachable (σ : Ledger) : Prop := Steps emptyLedger σ

/-- The state invariant maintained by every ledger transaction:
vote totals agree with the per-candidate sums, vote-record addresses are
unique, and every vote record sits at its derived address for a poll
that exists. -/
structure Inv (σ : Ledger) : Prop where
  pollsTotal : ∀ k p, lookupKey σ.polls k = some p →
    p.totalVotes = sumVotes p.candidates
  recKeysNodup : (σ.voteRecords.map Prod.fst).Nodup
  recValid : ∀ k r, lookupKey σ.voteRecords k = some r →
    k = getVoteRecordPDA r.pollId r.voter ∧ r.pollId < 2 ^ 64 ∧
    r.voter.length = 32 ∧ (lookupKey σ.polls (getPollPDA r.pollId)).isSome

/-! Service layer, embedded from the TypeScript source under `app/server`. -/

/-- Outcome of one account fetch over RPC: the account's data, an
account-does-not-exist failure, or any other (network/RPC) failure.  The
TypeScript `program.account.voteRecord.fetch` either resolves or throws;
both failure shapes are thrown exceptions. -/
inductive FetchResult (α : Type) where
  | ok (a : α)
  | notFound
  | rpcError
deriving DecidableEq

/-- The `VoteRecordInfo` shape returned by `checkVoteStatus` in
`solana.service.ts`. -/
structure VoteRecordInfo where
  voter : List Nat
  pollId : Nat
  candidateIndex : Nat
  recordAddress : List Nat
deriving DecidableEq

/-- The `{ hasVoted, voteRecord }` result shape of `checkVoteStatus`. -/
structure VoteStatus where
  hasVoted : Bool
  voteRecord : Option VoteRecordInfo
deriving DecidableEq

/-- `checkVoteStatus` from `solana.service.ts`: derive the vote-record
address, fetch the account there, and return its fields with
`hasVoted = true` on success; the `catch` around the fetch turns every
failure — account absence and RPC failure alike — into
`{ hasVoted: false, voteRecord: null }`.  The RPC read is the external
collaborator and enters as the `read` argument. -/
def checkVoteStatus (read : List Nat → FetchResult VoteRecord)
    (pollId : Nat) (voter : List Nat) : VoteStatus :=
  match read (getVoteRecordPDA pollId voter) with
  | .ok r =>
    { hasVoted := true,
      voteRecord := some
        { voter := r.voter, pollId := r.pollId,
          candidateIndex := r.candidateIndex,
          recordAddress := getVoteRecordPDA pollId voter } }
  | _ => { hasVoted := false, voteRecord := none }

/-- The reading of a ledger state with no transient failures: an account
fetch returns the stored record, or a not-found failure when absent. -/
def honestRead (σ : Ledger) : List Nat → FetchResult VoteRecord :=
  fun a =>
    match lookupKey σ.voteRecords a with
    | some r => .ok r
    | none => .notFound

/-- A vote-build request body, after JSON parsing: `pollId` and
`candidateIndex` as numbers, and `voterAddress` given by its base58
decoding — `some bytes` when it decodes, `none` when `new PublicKey`
would throw (missing or undecodable input). -/
structure VoteReq where
  pollId : Int
  candidateIndex : Int
  voter : Option (List Nat)
deriving DecidableEq

/-- `validatePublicKey` from `errorHandler.ts`: `new PublicKey(address)`
succeeds exactly for a 32-byte decoded key. -/
def validatePublicKey (v : Option (List Nat)) : Bool :=
  match v with
  | some bs => bs.length == 32
  | none => false

/-- `validateVote` from `errorHandler.ts`: shape checks only — `pollId`
positive, `candidateIndex` a non-negative number, `voterAddress` a valid
public key.  On success the decoded voter key is returned; each failure
carries the response message of the corresponding 400 reply. -/
def validateVote (req : VoteReq) : Except String (List Nat) :=
  if req.pollId ≤ 0 then .error "pollId must be a positive number."
  else if req.candidateIndex < 0 then
    .error "candidateIndex must be a non-negative number."
  else
    match req.voter with
    | some bs =>
      if bs.length == 32 then .ok bs
      else .error "Invalid Solana wallet address."
    | none => .error "Invalid Solana wallet address."

/-- The unsigned transaction assembled by `buildVoteTransaction` in
`solana.service.ts`: the derived poll and vote-record addresses, the
instruction arguments, the fee payer, and the freshness token
(`blockhash`) fetched from the connection (passed in as the external
collaborator's value). -/
structure BuiltTx where
  pollPda : List Nat
  voteRecordPda : List Nat
  pollId : Nat
  candidateIndex : Int
  voter : List Nat
  blockhash : Nat
deriving DecidableEq

/-- `buildVoteTransaction` from `solana.service.ts`: derives the two
PDAs, builds the `vote` instruction and serializes it with a fresh
blockhash.  It performs no validation against Poll state — it never
fetches the poll. -/
def buildVoteTransaction (pollId : Nat) (candidateIndex : Int)
    (voter : List Nat) (blockhash : Nat) : BuiltTx :=
  { pollPda := getPollPDA pollId,
    voteRecordPda := getVoteRecordPDA pollId voter,
    pollId := pollId, candidateIndex := candidateIndex,
    voter := voter, blockhash := blockhash }

/-- Outcome of `POST /vote/build`. -/
inductive BuildOutcome where
  | shapeError (msg : String)
  | alreadyVoted
  | built (tx : BuiltTx)
deriving DecidableEq

/-- The `POST /vote/build` route from `api.routes.ts`: `validateVote`
middleware, then `checkVoteStatus` — rejecting with the 409
"already voted" `AppError` when it reports `hasVoted` — then
`buildVoteTransaction`. -/
def voteBuildRoute (read : List Nat → FetchResult VoteRecord)
    (req : VoteReq) (blockhash : Nat) : BuildOutcome :=
  match validateVote req with
  | .error m => .shapeError m
  | .ok v =>
    if (checkVoteStatus read req.pollId.toNat v).hasVoted then .alreadyVoted
    else .built (buildVoteTransaction req.pollId.toNat req.candidateIndex v blockhash)

/-- A create-poll request body after JSON parsing (`Number(pollId)` as an
integer; non-numeric input folds into the non-positive case). -/
structure CreatePollReq where
  pollId : Int
  title : String
  candidates : List String
deriving DecidableEq

/-- The rejection branches of `validateCreatePoll` in `errorHandler.ts`,
one constructor per 400 response. -/
inductive CreatePollErr where
  | invalidPollId
  | titleRequired
  | titleTooLong
  | tooFewCandidates
  | tooManyCandidates
  | emptyCandidate
  | candidateNameTooLong
deriving DecidableEq

/-- The exact response message of each `validateCreatePoll` branch. -/
def CreatePollErr.message : CreatePollErr → String
  | .invalidPollId => "pollId must be a positive number."
  | .titleRequired => "title is required."
  | .titleTooLong => "title must be 100 characters or less."
  | .tooFewCandidates => "At least 2 candidates are required."
  | .tooManyCandidates => "Maximum 10 candidates allowed."
  | .emptyCandidate => "Each candidate must be a non-empty string."
  | .candidateNameTooLong => "Candidate names must be 50 characters or less."

/-- The per-candidate loop of `validateCreatePoll`: each name must be a
non-empty string after trimming and at most 50 characters long. -/
def checkCandidates : List String → Except CreatePollErr Unit
  | [] => .ok ()
  | c :: rest =>
    if c.trim.length = 0 then .error .emptyCandidate
    else if c.length > 50 then .error .candidateNameTooLong
    else checkCandidates rest

/-- `validateCreatePoll` from `errorHandler.ts`, branch for branch:
positive `pollId`, non-empty trimmed title, title at most 100
characters, between 2 and 10 candidates, each candidate name non-empty
and at most 50 characters. -/
def validateCreatePoll (req : CreatePollReq) : Except CreatePollErr Unit :=
  if req.pollId ≤ 0 then .error .invalidPollId
  else if req.title.trim.length = 0 then .error .titleRequired
  else if req.title.length > 100 then .error .titleTooLong
  else if req.candidates.length < 2 then .error .tooFewCandidates
  else if req.candidates.length > 10 then .error .tooManyCandidates
  else checkCandidates req.candidates

/-- The `POST /polls` route from `api.routes.ts`: `validateCreatePoll`
middleware first; only when it passes does the handler call `createPoll`
(which signs and submits the on-chain transaction) with the trimmed
title and candidate names. -/
def createPollRoute (σ : Ledger) (admin : List Nat) (req : CreatePollReq) :
    Except (CreatePollErr ⊕ TxError) Ledger :=
  match validateCreatePoll req with
  | .error e => .error (.inl e)
  | .ok _ =>
    match ledgerCreatePoll σ admin req.pollId.toNat req.title.trim
        (req.candidates.map String.trim) with
    | .error t => .error (.inr t)
    | .ok σ' => .ok σ'

/-- JavaScript `msg.includes(pat)`: `pat` occurs as a contiguous
substring of `msg`. -/
def includes (msg pat : String) : Bool :=
  decide (pat.toList <:+: msg.toList)

/-- `parseSolanaError` from `errorHandler.ts`, branch for branch: map a
raw ledger/Anchor error message to one stable human-readable message and
HTTP status; unrecognized text is truncated to 300 characters. -/
def parseSolanaError (msg : String) : String × Nat :=
  if includes msg "already in use" || includes msg "0x0" then
    ("This wallet has already voted in this poll.", 409)
  else if includes msg "AccountNotFound" || includes msg "Account does not exist" then
    ("Poll not found. Check the Poll ID.", 404)
  else if includes msg "insufficient funds" || includes msg "Insufficient" then
    ("Insufficient SOL balance for this transaction.", 402)
  else if includes msg "PollClosed" then
    ("This poll is closed and no longer accepting votes.", 403)
  else if includes msg "InvalidCandidate" then
    ("Invalid candidate index.", 400)
  else if includes msg "Unauthorized" then
    ("Only the poll admin can perform this action.", 403)
  else if includes msg "TooFewCandidates" then
    ("Poll must have at least 2 candidates.", 400)
  else if includes msg "TooManyCandidates" then
    ("Poll cannot have more than 10 candidates.", 400)
  else if includes msg "TitleTooLong" then
    ("Title must be 100 characters or less.", 400)
  else if includes msg "ADMIN_PRIVATE_KEY not configured" then
    ("Admin key not configured on server.", 501)
  else
    (if msg.length > 300 then (msg.toList.take 300).asString ++ "..." else msg, 500)

/-! Concrete keys and a concrete execution trace, used to instantiate the
claims on explicit inputs. -/

/-- A concrete 32-byte admin key. -/
def adminKey : List Nat := List.replicate 32 1

/-- A concrete 32-byte voter key. -/
def voterKey : List Nat := List.replicate 32 2

/-- A second concrete 32-byte voter key, distinct from `voterKey`. -/
def voterKey2 : List Nat := List.replicate 32 3

/-- Trace state 1: poll 1 ("Best", candidates "A"/"B") created on the
empty ledger. -/
def trace1 : Ledger := submitCreate emptyLedger adminKey 1 "Best" ["A", "B"]

/-- Trace state 2: `voterKey` has voted for candidate 0 of poll 1. -/
def trace2 : Ledger := submitVote trace1 1 voterKey 0

/-- Trace state 3: poll 1 has been closed by its admin. -/
def trace3 : Ledger := submitClose trace2 1 adminKey

theorem length_leBytes8 (n : Nat) : (leBytes8 n).length = 8 := rfl

theorem lookupKey_cons {α : Type} (k' : List Nat) (v : α)
    (t : List (List Nat × α)) (k : List Nat) :
    lookupKey ((k', v) :: t) k = if k' = k then some v else lookupKey t k := rfl

theorem lookupKey_eq_none {α : Type} {l : List (List Nat × α)} {k : List Nat} :
    lookupKey l k = none ↔ k ∉ l.map Prod.fst := by
  induction l with
  | nil => simp [lookupKey]
  | cons e t ih =>
    obtain ⟨k', v⟩ := e
    simp only [lookupKey, List.map_cons, List.mem_cons]
    by_cases hk : k' = k
    · simp [hk]
    · rw [if_neg hk, ih]
      constructor
      · intro hm hor
        rcases hor with h1 | h2
        · exact hk h1.symm
        · exact hm h2
      · intro hnot hm
        exact hnot (Or.inr hm)

theorem lookupKey_isSome_cons {α : Type} {l : List (List Nat × α)}
    {k k' : List Nat} {v : α} (h : (lookupKey l k).isSome) :
    (lookupKey ((k', v) :: l) k).isSome := by
  rw [lookupKey_cons]
  by_cases hk : k' = k <;> simp [hk, h]

theorem lookupKey_updatePoll (l : List (List Nat × Poll)) (k k' : List Nat)
    (f : Poll → Poll) :
    lookupKey (updatePoll l k f) k' =
      if k = k' then (lookupKey l k').map f else lookupKey l k' := by
  induction l with
  | nil =>
    simp only [updatePoll, lookupKey]
    split <;> rfl
  | cons e t ih =>
    obtain ⟨a, p⟩ := e
    by_cases hak : a = k
    · subst hak
      simp only [updatePoll, if_pos rfl]
      by_cases hk' : a = k'
      · subst hk'
        simp [lookupKey, ih]
      · simp only [lookupKey, if_neg hk', ih]
    · simp only [updatePoll, if_neg hak]
      by_cases hk' : a = k'
      · subst hk'
        have hkk' : ¬ k = a := fun h => hak h.symm
        simp [lookupKey, if_neg hkk']
      · simp only [lookupKey, if_neg hk', ih]

theorem updatePoll_map_fst (l : List (List Nat × Poll)) (k : List Nat)
    (f : Poll → Poll) :
    (updatePoll l k f).map Prod.fst = l.map Prod.fst := by
  induction l with
  | nil => rfl
  | cons e t ih =>
    obtain ⟨a, p⟩ := e
    by_cases hak : a = k
    · simp only [updatePoll, if_pos hak, List.map_cons, ih]
    · simp only [updatePoll, if_neg hak, List.map_cons, ih]

theorem sumVotes_nil : sumVotes [] = 0 := rfl

theorem sumVotes_cons (c : Candidate) (cs : List Candidate) :
    sumVotes (c :: cs) = c.voteCount + sumVotes cs := by
  simp [sumVotes]

theorem sumVotes_map_zero (names : List String) :
    sumVotes (names.map (fun n => { name := n, voteCount := 0 })) = 0 := by
  induction names with
  | nil => rfl
  | cons n t ih => simp [sumVotes_cons, ih]

theorem length_incAt (cs : List Candidate) (i : Nat) :
    (incAt cs i).length = cs.length := by
  induction cs generalizing i with
  | nil => rfl
  | cons c t ih =>
    cases i with
    | zero => rfl
    | succ j => simp [incAt, ih]

theorem sumVotes_incAt {cs : List Candidate} {i : Nat} (h : i < cs.length) :
    sumVotes (incAt cs i) = sumVotes cs + 1 := by
  induction cs generalizing i with
  | nil => simp at h
  | cons c t ih =>
    cases i with
    | zero => simp [incAt, sumVotes_cons]; omega
    | succ j =>
      simp only [incAt, sumVotes_cons]
      rw [ih (by simpa using h)]
      omega

theorem decodeLE8_leBytes8 (n : Nat) (h : n < 2 ^ 64) :
    decodeLE8 (leBytes8 n) = n := by
  simp only [leBytes8, decodeLE8]
  omega

theorem leBytes8_injOn {a b : Nat} (ha : a < 2 ^ 64) (hb : b < 2 ^ 64)
    (h : leBytes8 a = leBytes8 b) : a = b := by
  have := decodeLE8_leBytes8 a ha
  have := decodeLE8_leBytes8 b hb
  rw [h] at *
  omega

theorem getPollPDA_inj {a b : Nat} (ha : a < 2 ^ 64) (hb : b < 2 ^ 64)
    (h : getPollPDA a = getPollPDA b) : a = b := by
  apply leBytes8_injOn ha hb
  exact List.append_cancel_left h

theorem getVoteRecordPDA_inj {a b : Nat} {v w : List Nat}
    (ha : a < 2 ^ 64) (hb : b < 2 ^ 64)
    (_hv : v.length = 32) (_hw : w.length = 32)
    (h : getVoteRecordPDA a v = getVoteRecordPDA b w) : a = b ∧ v = w := by
  unfold getVoteRecordPDA at h
  rw [List.append_assoc, List.append_assoc] at h
  have h' : leBytes8 a ++ v = leBytes8 b ++ w := List.append_cancel_left h
  have hlen : (leBytes8 a).length = (leBytes8 b).length := by
    simp [length_leBytes8]
  obtain ⟨h1, h2⟩ := List.append_inj h' hlen
  exact ⟨leBytes8_injOn ha hb h1, h2⟩

theorem ledgerCreatePoll_ok_elim {σ : Ledger} {admin : List Nat} {pid : Nat}
    {title : String} {names : List String} {σ' : Ledger}
    (h : ledgerCreatePoll σ admin pid title names = .ok σ') :
    lookupKey σ.polls (getPollPDA pid) = none ∧
    2 ≤ names.length ∧ names.length ≤ 10 ∧ title.length ≤ 100 ∧
    σ' = { σ with polls := (getPollPDA pid,
      { admin := admin, pollId := pid, title := title,
        candidates := names.map (fun n => { name := n, voteCount := 0 }),
        totalVotes := 0, isActive := true }) :: σ.polls } := by
  unfold ledgerCreatePoll at h
  split at h
  · exact absurd h (by simp)
  next hnone =>
    split at h
    · exact absurd h (by simp)
    next h2 =>
      split at h
      · exact absurd h (by simp)
      next h3 =>
        split at h
        · exact absurd h (by simp)
        next h4 =>
          injection h with h
          exact ⟨hnone, by omega, by omega, by omega, h.symm⟩

theorem ledgerVote_ok_elim {σ : Ledger} {pid : Nat} {v : List Nat} {ci : Nat}
    {σ' : Ledger} (h : ledgerVote σ pid v ci = .ok σ') :
    ∃ p, lookupKey σ.polls (getPollPDA pid) = some p ∧
      lookupKey σ.voteRecords (getVoteRecordPDA pid v) = none ∧
      p.isActive = true ∧ ci < p.candidates.length ∧
      σ' = { polls := updatePoll σ.polls (getPollPDA pid)
               (fun q => { q with candidates := incAt q.candidates ci,
                                  totalVotes := q.totalVotes + 1 }),
             voteRecords := (getVoteRecordPDA pid v,
               { voter := v, pollId := pid, candidateIndex := ci })
               :: σ.voteRecords } := by
  unfold ledgerVote at h
  split at h
  · exact absurd h (by simp)
  next p hp =>
    split at h
    · exact absurd h (by simp)
    next hrec =>
      split at h
      · exact absurd h (by simp)
      next hact =>
        split at h
        next hci =>
          injection h with h
          exact ⟨p, hp, hrec, by simpa using hact, hci, h.symm⟩
        · exact absurd h (by simp)

theorem ledgerClosePoll_ok_elim {σ : Ledger} {pid : Nat} {caller : List Nat}
    {σ' : Ledger} (h : ledgerClosePoll σ pid caller = .ok σ') :
    ∃ p, lookupKey σ.polls (getPollPDA pid) = some p ∧ caller = p.admin ∧
      σ' = { σ with
             polls := updatePoll σ.polls (getPollPDA pid)
               (fun q => { q with isActive := false }) } := by
  unfold ledgerClosePoll at h
  split at h
  · exact absurd h (by simp)
  next p hp =>
    split at h
    next hadmin =>
      injection h with h
      exact ⟨p, hp, hadmin, h.symm⟩
    · exact absurd h (by simp)

theorem inv_empty : Inv emptyLedger := by
  refine ⟨?_, ?_, ?_⟩
  · intro k p hk
    simp [emptyLedger, lookupKey] at hk
  · simp [emptyLedger]
  · intro k r hk
    simp [emptyLedger, lookupKey] at hk

theorem inv_create {σ σ' : Ledger} {admin : List Nat} {pid : Nat}
    {title : String} {names : List String} (hinv : Inv σ)
    (h : ledgerCreatePoll σ admin pid title names = .ok σ') : Inv σ' := by
  obtain ⟨hnone, -, -, -, rfl⟩ := ledgerCreatePoll_ok_elim h
  refine ⟨?_, hinv.recKeysNodup, ?_⟩
  · intro k p hk
    rw [lookupKey_cons] at hk
    by_cases hkk : getPollPDA pid = k
    · rw [if_pos hkk] at hk
      injection hk with hk
      subst hk
      show (0 : Nat) = sumVotes (names.map (fun n => { name := n, voteCount := 0 }))
      rw [sumVotes_map_zero]
    · rw [if_neg hkk] at hk
      exact hinv.pollsTotal k p hk
  · intro k r hk
    obtain ⟨h1, h2, h3, h4⟩ := hinv.recValid k r hk
    exact ⟨h1, h2, h3, lookupKey_isSome_cons h4⟩

theorem inv_vote {σ σ' : Ledger} {pid : Nat} {v : List Nat} {ci : Nat}
    (hinv : Inv σ) (hpid : pid < 2 ^ 64) (hv : v.length = 32)
    (h : ledgerVote σ pid v ci = .ok σ') : Inv σ' := by
  obtain ⟨p, hp, hrec, hact, hci, rfl⟩ := ledgerVote_ok_elim h
  refine ⟨?_, ?_, ?_⟩
  · intro k q hk
    rw [lookupKey_updatePoll] at hk
    by_cases hkk : getPollPDA pid = k
    · rw [if_pos hkk, ← hkk, hp] at hk
      injection hk with hk
      subst hk
      show p.totalVotes + 1 = sumVotes (incAt p.candidates ci)
      rw [sumVotes_incAt hci, hinv.pollsTotal _ _ hp]
    · rw [if_neg hkk] at hk
      exact hinv.pollsTotal k q hk
  · have hmem : getVoteRecordPDA pid v ∉ σ.voteRecords.map Prod.fst :=
      lookupKey_eq_none.mp hrec
    simp only [List.map_cons, List.nodup_cons]
    exact ⟨hmem, hinv.recKeysNodup⟩
  · intro k r hk
    rw [lookupKey_cons] at hk
    by_cases hkk : getVoteRecordPDA pid v = k
    · rw [if_pos hkk] at hk
      injection hk with hk
      subst hk
      refine ⟨hkk.symm, hpid, hv, ?_⟩
      rw [lookupKey_updatePoll, if_pos rfl, hp]
      rfl
    · rw [if_neg hkk] at hk
      obtain ⟨h1, h2, h3, h4⟩ := hinv.recValid k r hk
      refine ⟨h1, h2, h3, ?_⟩
      rw [lookupKey_updatePoll]
      by_cases hpp : getPollPDA pid = getPollPDA r.pollId
      · rw [if_pos hpp]
        simpa using h4
      · rw [if_neg hpp]
        exact h4

theorem inv_close {σ σ' : Ledger} {pid : Nat} {caller : List Nat}
    (hinv : Inv σ) (h : ledgerClosePoll σ pid caller = .ok σ') : Inv σ' := by
  obtain ⟨p, hp, hcaller, rfl⟩ := ledgerClosePoll_ok_elim h
  refine ⟨?_, hinv.recKeysNodup, ?_⟩
  · intro k q hk
    rw [lookupKey_updatePoll] at hk
    by_cases hkk : getPollPDA pid = k
    · rw [if_pos hkk, ← hkk, hp] at hk
      injection hk with hk
      subst hk
      show p.totalVotes = sumVotes p.candidates
      exact hinv.pollsTotal _ _ hp
    · rw [if_neg hkk] at hk
      exact hinv.pollsTotal k q hk
  · intro k r hk
    obtain ⟨h1, h2, h3, h4⟩ := hinv.recValid k r hk
    refine ⟨h1, h2, h3, ?_⟩
    rw [lookupKey_updatePoll]
    by_cases hpp : getPollPDA pid = getPollPDA r.pollId
    · rw [if_pos hpp]
      simpa using h4
    · rw [if_neg hpp]
      exact h4

theorem inv_step {σ σ' : Ledger} (h : Step σ σ') (hinv : Inv σ) : Inv σ' := by
  cases h with
  | create admin pid title names hpid hok => exact inv_create hinv hok
  | vote pid v ci hpid hv hok => exact inv_vote hinv hpid hv hok
  | close pid caller hpid hok => exact inv_close hinv hok

theorem inv_steps {σ σ' : Ledger} (h : Steps σ σ') (hinv : Inv σ) : Inv σ' := by
  induction h with
  | refl => exact hinv
  | tail _ hstep ih => exact inv_step hstep ih

theorem inv_of_reachable {σ : Ledger} (h : Reachable σ) : Inv σ :=
  inv_steps h inv_empty

theorem record_persists {σ σ' : Ledger} (hstep : Step σ σ') {k : List Nat}
    {r : VoteRecord} (h : lookupKey σ.voteRecords k = some r) :
    lookupKey σ'.voteRecords k = some r := by
  cases hstep with
  | create admin pid title names hpid hok =>
    obtain ⟨-, -, -, -, rfl⟩ := ledgerCreatePoll_ok_elim hok
    exact h
  | vote pid v ci hpid hv hok =>
    obtain ⟨p, hp, hrec, -, -, rfl⟩ := ledgerVote_ok_elim hok
    have hne : getVoteRecordPDA pid v ≠ k := by
      intro he
      rw [he, h] at hrec
      exact absurd hrec (by simp)
    rw [lookupKey_cons, if_neg hne]
    exact h
  | close pid caller hpid hok =>
    obtain ⟨p, hp, hc, rfl⟩ := ledgerClosePoll_ok_elim hok
    exact h

theorem record_persists_star {σ σ' : Ledger} (hs : Steps σ σ') {k : List Nat}
    {r : VoteRecord} (h : lookupKey σ.voteRecords k = some r) :
    lookupKey σ'.voteRecords k = some r := by
  induction hs with
  | refl => exact h
  | tail _ hstep ih => exact record_persists hstep ih

theorem closed_persists {σ σ' : Ledger} (hstep : Step σ σ') {k : List Nat}
    {p : Poll} (h : lookupKey σ.polls k = some p) (hc : p.isActive = false) :
    ∃ q, lookupKey σ'.polls k = some q ∧ q.isActive = false := by
  cases hstep with
  | create admin pid title names hpid hok =>
    obtain ⟨hnone, -, -, -, rfl⟩ := ledgerCreatePoll_ok_elim hok
    have hne : getPollPDA pid ≠ k := by
      intro he
      rw [he, h] at hnone
      exact absurd hnone (by simp)
    exact ⟨p, by rw [lookupKey_cons, if_neg hne]; exact h, hc⟩
  | vote pid v ci hpid hv hok =>
    obtain ⟨q, hq, -, hact, -, rfl⟩ := ledgerVote_ok_elim hok
    by_cases hkk : getPollPDA pid = k
    · rw [hkk, h] at hq
      injection hq with hq
      subst hq
      simp [hact] at hc
    · exact ⟨p, by rw [lookupKey_updatePoll, if_neg hkk]; exact h, hc⟩
  | close pid caller hpid hok =>
    obtain ⟨q, hq, -, rfl⟩ := ledgerClosePoll_ok_elim hok
    by_cases hkk : getPollPDA pid = k
    · refine ⟨{ p with isActive := false }, ?_, rfl⟩
      rw [lookupKey_updatePoll, if_pos hkk, h]
      rfl
    · exact ⟨p, by rw [lookupKey_updatePoll, if_neg hkk]; exact h, hc⟩

theorem closed_persists_star {σ σ' : Ledger} (hs : Steps σ σ') {k : List Nat}
    {p : Poll} (h : lookupKey σ.polls k = some p) (hc : p.isActive = false) :
    ∃ q, lookupKey σ'.polls k = some q ∧ q.isActive = false := by
  induction hs with
  | refl => exact ⟨p, h, hc⟩
  | tail _ hstep ih =>
    obtain ⟨q, hq, hqc⟩ := ih
    exact closed_persists hstep hq hqc

theorem vote_already_voted {σ : Ledger} (hinv : Inv σ) {pid : Nat}
    {v : List Nat} {r : VoteRecord} (hpid : pid < 2 ^ 64) (hv : v.length = 32)
    (h : lookupKey σ.voteRecords (getVoteRecordPDA pid v) = some r)
    (ci : Nat) : ledgerVote σ pid v ci = .error .AlreadyVoted := by
  obtain ⟨h1, h2, h3, h4⟩ := hinv.recValid _ _ h
  obtain ⟨hpidEq, hvEq⟩ := getVoteRecordPDA_inj hpid h2 hv h3 h1
  rw [← hpidEq] at h4
  obtain ⟨p, hp⟩ := Option.isSome_iff_exists.mp h4
  simp [ledgerVote, hp, h]

theorem reachable_trace1 : Reachable trace1 :=
  Relation.ReflTransGen.single
    (Step.create emptyLedger trace1 adminKey 1 "Best" ["A", "B"]
      (by norm_num) (by decide))

theorem reachable_trace2 : Reachable trace2 :=
  reachable_trace1.tail
    (Step.vote trace1 trace2 1 voterKey 0 (by norm_num) (by decide) (by decide))

theorem reachable_trace3 : Reachable trace3 :=
  reachable_trace2.tail
    (Step.close trace2 trace3 1 adminKey (by norm_num) (by decide))

/-- C1: in every reachable ledger state there is at most one VoteRecord
per derived address — hence, by injectivity of the derivation
(`getVoteRecordPDA_inj`), at most one per (pollId, voter) pair;
a successful Vote creates the VoteRecord at
`deriveVoteRecordAddress(pollId, voter)`; once that record exists, every
later Vote attempt by the same voter for the same poll fails with
`AlreadyVoted` and leaves the ledger unchanged (zero partial effect);
and the record persists under any further successful transactions, so at
most one Vote by that voter ever succeeds. -/
theorem claim_C1 (σ : Ledger) (hσ : Reachable σ) (pid : Nat) (v : List Nat)
    (hpid : pid < 2 ^ 64) (hv : v.length = 32) :
    ((σ.voteRecords.map Prod.fst).Nodup)
    ∧ (∀ ci σ', ledgerVote σ pid v ci = .ok σ' →
        lookupKey σ'.voteRecords (getVoteRecordPDA pid v) =
          some { voter := v, pollId := pid, candidateIndex := ci })
    ∧ (∀ r, lookupKey σ.voteRecords (getVoteRecordPDA pid v) = some r →
        ∀ ci, ledgerVote σ pid v ci = .error .AlreadyVoted ∧
          submitVote σ pid v ci = σ)
    ∧ (∀ r σ'', lookupKey σ.voteRecords (getVoteRecordPDA pid v) = some r →
        Steps σ σ'' →
        lookupKey σ''.voteRecords (getVoteRecordPDA pid v) = some r) := by
  have hinv := inv_of_reachable hσ
  refine ⟨hinv.recKeysNodup, ?_, ?_, ?_⟩
  · intro ci σ' hok
    obtain ⟨p, hp, hrec, -, -, rfl⟩ := ledgerVote_ok_elim hok
    rw [lookupKey_cons, if_pos rfl]
  · intro r hr ci
    have hfail := vote_already_voted hinv hpid hv hr ci
    exact ⟨hfail, by simp [submitVote, hfail]⟩
  · intro r σ'' hr hs
    exact record_persists_star hs hr

/-- C1 witness: in the concrete trace, `voterKey`'s record for poll 1
exists after its vote, and a second vote attempt by `voterKey` fails
with `AlreadyVoted` leaving the state unchanged. -/
theorem claim_C1_witness :
    lookupKey trace2.voteRecords (getVoteRecordPDA 1 voterKey) =
      some { voter := voterKey, pollId := 1, candidateIndex := 0 } ∧
    ledgerVote trace2 1 voterKey 1 = .error .AlreadyVoted ∧
    submitVote trace2 1 voterKey 1 = trace2 := by
  have hrec : lookupKey trace2.voteRecords (getVoteRecordPDA 1 voterKey) =
      some { voter := voterKey, pollId := 1, candidateIndex := 0 } := by decide
  have h := (claim_C1 trace2 reachable_trace2 1 voterKey (by norm_num)
    (by decide)).2.2.1 _ hrec 1
  exact ⟨hrec, h.1, h.2⟩

/-- C2: in every reachable ledger state each stored poll satisfies
`totalVotes = Σ candidates[i].voteCount`; a freshly created poll has
`totalVotes = 0` with every candidate count 0; and each successful vote
increments exactly one candidate's count (the one at `candidateIndex`)
and `totalVotes` by 1. -/
theorem claim_C2 (σ : Ledger) (hσ : Reachable σ) :
    (∀ k p, lookupKey σ.polls k = some p →
      p.totalVotes = sumVotes p.candidates)
    ∧ (∀ admin pid title names σ',
        ledgerCreatePoll σ admin pid title names = .ok σ' →
        ∃ p, lookupKey σ'.polls (getPollPDA pid) = some p ∧
          p.totalVotes = 0 ∧ ∀ c ∈ p.candidates, c.voteCount = 0)
    ∧ (∀ pid v ci σ' p, ledgerVote σ pid v ci = .ok σ' →
        lookupKey σ.polls (getPollPDA pid) = some p →
        ∃ p', lookupKey σ'.polls (getPollPDA pid) = some p' ∧
          p'.totalVotes = p.totalVotes + 1 ∧
          p'.candidates = incAt p.candidates ci ∧
          sumVotes p'.candidates = sumVotes p.candidates + 1) := by
  have hinv := inv_of_reachable hσ
  refine ⟨hinv.pollsTotal, ?_, ?_⟩
  · intro admin pid title names σ' hok
    obtain ⟨-, -, -, -, rfl⟩ := ledgerCreatePoll_ok_elim hok
    refine ⟨_, by rw [lookupKey_cons, if_pos rfl], rfl, ?_⟩
    intro c hc
    obtain ⟨n, -, rfl⟩ := List.mem_map.mp hc
    rfl
  · intro pid v ci σ' p hok hp
    obtain ⟨q, hq, -, -, hci, rfl⟩ := ledgerVote_ok_elim hok
    rw [hp] at hq
    injection hq with hq
    subst hq
    refine ⟨{ p with candidates := incAt p.candidates ci,
                     totalVotes := p.totalVotes + 1 }, ?_, rfl, rfl, ?_⟩
    · rw [lookupKey_updatePoll, if_pos rfl, hp]
      rfl
    · exact sumVotes_incAt hci

/-- C2 witness: the concrete poll stored after one vote has
`totalVotes = 1`, equal to the sum of its candidate counts. -/
theorem claim_C2_witness :
    lookupKey trace2.polls (getPollPDA 1) =
      some { admin := adminKey, pollId := 1, title := "Best",
             candidates := [{ name := "A", voteCount := 1 },
                            { name := "B", voteCount := 0 }],
             totalVotes := 1, isActive := true } ∧
    (1 : Nat) = sumVotes [{ name := "A", voteCount := 1 },
                          { name := "B", voteCount := 0 }] := by
  have hp : lookupKey trace2.polls (getPollPDA 1) =
      some { admin := adminKey, pollId := 1, title := "Best",
             candidates := [{ name := "A", voteCount := 1 },
                            { name := "B", voteCount := 0 }],
             totalVotes := 1, isActive := true } := by decide
  exact ⟨hp, (claim_C2 trace2 reachable_trace2).1 _ _ hp⟩

/-- C3: address derivation is a pure function of its inputs and the
fixed seed tags (the first two conjuncts exhibit the defining
equations), `getPollPDA` is injective across distinct poll ids that fit
in the 8-byte little-endian encoding, and `getVoteRecordPDA` is
injective across distinct (pollId, 32-byte voter) pairs.  Determinism is
immediate: both derivations are total functions of their inputs. -/
theorem claim_C3 (pid1 pid2 : Nat) (v1 v2 : List Nat)
    (h1 : pid1 < 2 ^ 64) (h2 : pid2 < 2 ^ 64) :
    getPollPDA pid1 = pollSeedTag ++ leBytes8 pid1
    ∧ getVoteRecordPDA pid1 v1 = voteSeedTag ++ leBytes8 pid1 ++ v1
    ∧ (getPollPDA pid1 = getPollPDA pid2 → pid1 = pid2)
    ∧ (v1.length = 32 → v2.length = 32 →
        getVoteRecordPDA pid1 v1 = getVoteRecordPDA pid2 v2 →
        pid1 = pid2 ∧ v1 = v2) :=
  ⟨rfl, rfl, getPollPDA_inj h1 h2,
   fun hv1 hv2 h => getVoteRecordPDA_inj h1 h2 hv1 hv2 h⟩

/-- C3 witness: the derivation equations and injectivity instantiated at
concrete inputs. -/
theorem claim_C3_witness :
    getPollPDA 1 = pollSeedTag ++ leBytes8 1 ∧
    (getPollPDA 1 = getPollPDA 1 → (1 : Nat) = 1) :=
  ⟨(claim_C3 1 1 voterKey voterKey (by norm_num) (by norm_num)).1,
   (claim_C3 1 1 voterKey voterKey (by norm_num) (by norm_num)).2.2.1⟩

theorem checkVoteStatus_of_notFound {read : List Nat → FetchResult VoteRecord}
    {pid : Nat} {v : List Nat}
    (h : read (getVoteRecordPDA pid v) = .notFound) :
    checkVoteStatus read pid v = { hasVoted := false, voteRecord := none } := by
  simp [checkVoteStatus, h]

theorem checkVoteStatus_of_rpcError {read : List Nat → FetchResult VoteRecord}
    {pid : Nat} {v : List Nat}
    (h : read (getVoteRecordPDA pid v) = .rpcError) :
    checkVoteStatus read pid v = { hasVoted := false, voteRecord := none } := by
  simp [checkVoteStatus, h]

theorem validateVote_ok {pid ci : Int} {v : List Nat}
    (hpid : 0 < pid) (hci : 0 ≤ ci) (hv : v.length = 32) :
    validateVote { pollId := pid, candidateIndex := ci, voter := some v } =
      .ok v := by
  unfold validateVote
  dsimp only
  rw [if_neg (by omega), if_neg (by omega)]
  simp [hv]

theorem voteBuildRoute_builds {read : List Nat → FetchResult VoteRecord}
    {pid ci : Int} {v : List Nat} {bh : Nat}
    (hpid : 0 < pid) (hci : 0 ≤ ci) (hv : v.length = 32)
    (hread : (checkVoteStatus read pid.toNat v).hasVoted = false) :
    voteBuildRoute read { pollId := pid, candidateIndex := ci, voter := some v }
      bh = .built (buildVoteTransaction pid.toNat ci v bh) := by
  unfold voteBuildRoute
  rw [validateVote_ok hpid hci hv]
  simp [hread]

/-- C4 counterexample: the claim says the Vote transition fails with
`PollClosed` when the poll is inactive and with `InvalidCandidate` when
`candidateIndex` is out of range, in each case without building a
transaction.  In the concrete state `trace3`, poll 1 is closed
(`isActive = false`) and has only 2 candidates, yet a vote-build request
with `candidateIndex = 5` from a fresh voter builds and returns a
transaction: the service's vote path performs no poll-state validation
before building. -/
theorem claim_C4_counterexample :
    (lookupKey trace3.polls (getPollPDA 1)).map Poll.isActive = some false ∧
    (lookupKey trace3.polls (getPollPDA 1)).map
      (fun p => p.candidates.length) = some 2 ∧
    voteBuildRoute (honestRead trace3)
      { pollId := 1, candidateIndex := 5, voter := some voterKey2 } 7 =
      .built (buildVoteTransaction 1 5 voterKey2 7) :=
  ⟨by decide, by decide, by decide⟩

/-- C4 (amended): before a transaction is built, the service validates
only input shape (`pollId` positive, `candidateIndex` non-negative,
`voterAddress` a valid 32-byte public key) and the prior-vote status
probe; with valid shape and a record-absent probe result, it builds the
transaction regardless of the poll's existence, `isActive` flag, or the
candidate-index bound — `PollNotFound`, `PollClosed` and
`InvalidCandidate` can only arise from the ledger after submission. -/
theorem claim_C4_amended (read : List Nat → FetchResult VoteRecord)
    (pid ci : Int) (v : List Nat) (bh : Nat)
    (hpid : 0 < pid) (hci : 0 ≤ ci) (hv : v.length = 32)
    (hread : read (getVoteRecordPDA pid.toNat v) = .notFound) :
    voteBuildRoute read { pollId := pid, candidateIndex := ci, voter := some v }
      bh = .built (buildVoteTransaction pid.toNat ci v bh) :=
  voteBuildRoute_builds hpid hci hv
    (by rw [checkVoteStatus_of_notFound hread])

/-- C4 (amended) witness: the amended statement instantiated on the
concrete closed-poll state with an out-of-range candidate index. -/
theorem claim_C4_amended_witness :
    honestRead trace3 (getVoteRecordPDA 1 voterKey2) = FetchResult.notFound ∧
    voteBuildRoute (honestRead trace3)
      { pollId := 1, candidateIndex := 9, voter := some voterKey2 } 7 =
      .built (buildVoteTransaction 1 9 voterKey2 7) :=
  ⟨by decide,
   claim_C4_amended (honestRead trace3) 1 9 voterKey2 7 (by norm_num)
     (by norm_num) (by decide) (by decide)⟩

/-- C5 counterexample: the claim says the service performs no
pre-existence check and that `AlreadyVoted` is surfaced only by the
ledger's rejection after a submit round-trip.  But `POST /vote/build`
calls `checkVoteStatus` and rejects with the 409 "already voted" error
before building: in state `trace2` (where `voterKey` has a vote record)
the build route returns the already-voted rejection — the build route
performs no submit at all — while in `trace1` (no record, all else
equal) the same request builds.  The outcome depends on a service-side
existence probe, not on a ledger rejection. -/
theorem claim_C5_counterexample :
    voteBuildRoute (honestRead trace2)
      { pollId := 1, candidateIndex := 0, voter := some voterKey } 7 =
      .alreadyVoted ∧
    voteBuildRoute (honestRead trace1)
      { pollId := 1, candidateIndex := 0, voter := some voterKey } 7 =
      .built (buildVoteTransaction 1 0 voterKey 7) :=
  ⟨by decide, by decide⟩

/-- C5 (amended): the vote-build route performs a pre-existence check —
when a VoteRecord is stored at the derived address and the probe reads
it, the route rejects with the 409 already-voted error before building —
while the ledger's atomic rejection remains the final double-vote
defense, its raw `already in use` / `0x0` error text mapped to the
stable already-voted message (status 409) by `parseSolanaError` after a
submit round-trip. -/
theorem claim_C5_amended (σ : Ledger) (pid ci : Int) (v : List Nat)
    (r : VoteRecord) (bh : Nat) (msg : String) :
    (0 < pid → 0 ≤ ci → v.length = 32 →
      lookupKey σ.voteRecords (getVoteRecordPDA pid.toNat v) = some r →
      voteBuildRoute (honestRead σ)
        { pollId := pid, candidateIndex := ci, voter := some v } bh =
        .alreadyVoted)
    ∧ (includes msg "already in use" = true →
        parseSolanaError msg =
          ("This wallet has already voted in this poll.", 409))
    ∧ (includes msg "0x0" = true →
        parseSolanaError msg =
          ("This wallet has already voted in this poll.", 409)) := by
  refine ⟨?_, ?_, ?_⟩
  · intro hpid hci hv hr
    unfold voteBuildRoute
    rw [validateVote_ok hpid hci hv]
    have hread : honestRead σ (getVoteRecordPDA pid.toNat v) = .ok r := by
      simp [honestRead, hr]
    simp [checkVoteStatus, hread]
  · intro h
    simp [parseSolanaError, h]
  · intro h
    simp [parseSolanaError, h]

/-- C5 (amended) witness: the pre-check rejection on the concrete state
and the post-submit mapping of a concrete raw ledger message. -/
theorem claim_C5_amended_witness :
    voteBuildRoute (honestRead trace2)
      { pollId := 1, candidateIndex := 1, voter := some voterKey } 9 =
      .alreadyVoted ∧
    parseSolanaError "Allocate: account Address already in use" =
      ("This wallet has already voted in this poll.", 409) := by
  have h := claim_C5_amended trace2 1 1 voterKey
    { voter := voterKey, pollId := 1, candidateIndex := 0 } 9
    "Allocate: account Address already in use"
  exact ⟨h.1 (by norm_num) (by norm_num) (by decide) (by decide),
         h.2.1 (by decide)⟩

/-- C6 counterexample: the claim says every Vote attempted after
ClosePoll fails with `PollClosed`.  In the concrete closed state
`trace3`, a repeat vote attempt by `voterKey` (whose VoteRecord already
exists) fails with `AlreadyVoted`, not `PollClosed`: vote-record account
creation is rejected before the handler's `isActive` check. -/
theorem claim_C6_counterexample :
    (lookupKey trace3.polls (getPollPDA 1)).map Poll.isActive = some false ∧
    ledgerVote trace3 1 voterKey 1 = .error .AlreadyVoted ∧
    TxError.AlreadyVoted ≠ TxError.PollClosed :=
  ⟨by decide, by decide, by decide⟩

/-- C6 (amended): a poll is created with `isActive = true`; `isActive`
is monotonic — once false it stays false under any further successful
transactions, and no transition sets it back to true; every Vote
attempted after ClosePoll fails and leaves all candidate counts and
`totalVotes` unchanged — with `PollClosed` when the voter has no
existing VoteRecord for the poll, with `AlreadyVoted` when they do. -/
theorem claim_C6_amended (σ σ' : Ledger) :
    (∀ admin pid title names σ1,
      ledgerCreatePoll σ admin pid title names = .ok σ1 →
      ∃ p, lookupKey σ1.polls (getPollPDA pid) = some p ∧ p.isActive = true)
    ∧ (Steps σ σ' → ∀ k p, lookupKey σ.polls k = some p →
        p.isActive = false →
        ∃ q, lookupKey σ'.polls k = some q ∧ q.isActive = false)
    ∧ (∀ pid v ci p, lookupKey σ.polls (getPollPDA pid) = some p →
        p.isActive = false →
        lookupKey σ.voteRecords (getVoteRecordPDA pid v) = none →
        ledgerVote σ pid v ci = .error .PollClosed ∧
          submitVote σ pid v ci = σ)
    ∧ (∀ pid v ci p σ1, lookupKey σ.polls (getPollPDA pid) = some p →
        p.isActive = false → ledgerVote σ pid v ci ≠ .ok σ1) := by
  refine ⟨?_, ?_, ?_, ?_⟩
  · intro admin pid title names σ1 hok
    obtain ⟨-, -, -, -, rfl⟩ := ledgerCreatePoll_ok_elim hok
    exact ⟨_, by rw [lookupKey_cons, if_pos rfl], rfl⟩
  · intro hs k p hp hc
    exact closed_persists_star hs hp hc
  · intro pid v ci p hp hc hrec
    have hfail : ledgerVote σ pid v ci = .error .PollClosed := by
      simp [ledgerVote, hp, hrec, hc]
    exact ⟨hfail, by simp [submitVote, hfail]⟩
  · intro pid v ci p σ1 hp hc hok
    obtain ⟨q, hq, -, hact, -, -⟩ := ledgerVote_ok_elim hok
    rw [hp] at hq
    injection hq with hq
    subst hq
    rw [hact] at hc
    exact absurd hc (by simp)

/-- C6 (amended) witness: on the concrete closed state, a fresh voter's
attempt fails with `PollClosed` and leaves the ledger unchanged. -/
theorem claim_C6_amended_witness :
    ledgerVote trace3 1 voterKey2 0 = .error .PollClosed ∧
    submitVote trace3 1 voterKey2 0 = trace3 :=
  (claim_C6_amended trace3 trace3).2.2.1 1 voterKey2 0
    { admin := adminKey, pollId := 1, title := "Best",
      candidates := [{ name := "A", voteCount := 1 },
                     { name := "B", voteCount := 0 }],
      totalVotes := 1, isActive := false }
    (by decide) (by decide) (by decide)

theorem checkCandidates_err {l : List String}
    (h : ∃ c ∈ l, c.trim.length = 0 ∨ 50 < c.length) :
    checkCandidates l = .error .emptyCandidate ∨
    checkCandidates l = .error .candidateNameTooLong := by
  induction l with
  | nil => simp at h
  | cons c t ih =>
    by_cases h0 : c.trim.length = 0
    · left
      simp [checkCandidates, h0]
    · by_cases h50 : c.length > 50
      · right
        simp [checkCandidates, h0, h50]
      · obtain ⟨d, hd, hbad⟩ := h
        rcases List.mem_cons.mp hd with rfl | hdt
        · rcases hbad with hb | hb
          · exact absurd hb h0
          · exact absurd hb h50
        · have hrec := ih ⟨d, hdt, hbad⟩
          simpa [checkCandidates, h0, h50] using hrec

/-- C7: `validateCreatePoll` rejects each malformed input shape with the
branch matching the claim's error kinds — non-positive `pollId` and
empty-or-overlong candidate names map to the `InvalidInput`-kind
branches (`invalidPollId`, `titleRequired`, `emptyCandidate`,
`candidateNameTooLong`), fewer than 2 names to `tooFewCandidates`, more
than 10 to `tooManyCandidates`, and a title over 100 characters to
`titleTooLong` — and whenever validation rejects, the create-poll route
returns that rejection for every ledger state and admin, i.e. before any
transaction is built or any ledger round-trip happens. -/
theorem claim_C7 (req : CreatePollReq) :
    (req.pollId ≤ 0 → validateCreatePoll req = .error .invalidPollId)
    ∧ (0 < req.pollId → req.title.trim.length = 0 →
        validateCreatePoll req = .error .titleRequired)
    ∧ (0 < req.pollId → req.title.trim.length ≠ 0 →
        100 < req.title.length →
        validateCreatePoll req = .error .titleTooLong)
    ∧ (0 < req.pollId → req.title.trim.length ≠ 0 →
        req.title.length ≤ 100 → req.candidates.length < 2 →
        validateCreatePoll req = .error .tooFewCandidates)
    ∧ (0 < req.pollId → req.title.trim.length ≠ 0 →
        req.title.length ≤ 100 → 10 < req.candidates.length →
        validateCreatePoll req = .error .tooManyCandidates)
    ∧ (0 < req.pollId → req.title.trim.length ≠ 0 →
        req.title.length ≤ 100 → 2 ≤ req.candidates.length →
        req.candidates.length ≤ 10 →
        (∃ c ∈ req.candidates, c.trim.length = 0 ∨ 50 < c.length) →
        validateCreatePoll req = .error .emptyCandidate ∨
          validateCreatePoll req = .error .candidateNameTooLong)
    ∧ (∀ e σ admin, validateCreatePoll req = .error e →
        createPollRoute σ admin req = .error (.inl e)) := by
  refine ⟨?_, ?_, ?_, ?_, ?_, ?_, ?_⟩
  · intro h1
    unfold validateCreatePoll
    rw [if_pos h1]
  · intro h1 h2
    unfold validateCreatePoll
    rw [if_neg (by omega), if_pos h2]
  · intro h1 h2 h3
    unfold validateCreatePoll
    rw [if_neg (by omega), if_neg h2, if_pos (by omega)]
  · intro h1 h2 h3 h4
    unfold validateCreatePoll
    rw [if_neg (by omega), if_neg h2, if_neg (by omega), if_pos h4]
  · intro h1 h2 h3 h4
    unfold validateCreatePoll
    rw [if_neg (by omega), if_neg h2, if_neg (by omega), if_neg (by omega),
      if_pos (by omega)]
  · intro h1 h2 h3 h4 h5 hex
    unfold validateCreatePoll
    rw [if_neg (by omega), if_neg h2, if_neg (by omega), if_neg (by omega),
      if_neg (by omega)]
    exact checkCandidates_err hex
  · intro e σ admin h
    simp [createPollRoute, h]

/-- C7 witness: a request with `pollId = 0` is rejected with the
`invalidPollId` branch and the route returns it unchanged, for the
concrete empty ledger. -/
theorem claim_C7_witness :
    validateCreatePoll { pollId := 0, title := "T", candidates := ["A", "B"] }
      = .error .invalidPollId ∧
    createPollRoute emptyLedger adminKey
      { pollId := 0, title := "T", candidates := ["A", "B"] } =
      .error (.inl .invalidPollId) := by
  have h := claim_C7 { pollId := 0, title := "T", candidates := ["A", "B"] }
  have h1 := h.1 (by norm_num)
  exact ⟨h1, h.2.2.2.2.2.2 _ emptyLedger adminKey h1⟩

/-- C8: the vote-status query is an existence probe at
`deriveVoteRecordAddress(pollId, voter)` — when the read reports the
record absent it returns `hasVoted = false` with a null record as a
normal result (the function returns a value, it does not fail), and when
the record exists it returns `hasVoted = true` together with the stored
voter, pollId and candidateIndex (and the derived record address). -/
theorem claim_C8 (read : List Nat → FetchResult VoteRecord) (pid : Nat)
    (v : List Nat) (r : VoteRecord) :
    (read (getVoteRecordPDA pid v) = .notFound →
      checkVoteStatus read pid v = { hasVoted := false, voteRecord := none })
    ∧ (read (getVoteRecordPDA pid v) = .ok r →
      checkVoteStatus read pid v =
        { hasVoted := true,
          voteRecord := some
            { voter := r.voter, pollId := r.pollId,
              candidateIndex := r.candidateIndex,
              recordAddress := getVoteRecordPDA pid v } }) := by
  constructor
  · intro h
    exact checkVoteStatus_of_notFound h
  · intro h
    simp [checkVoteStatus, h]

/-- C8 witness: on the concrete state `trace2`, the probe reports
`voterKey2` has not voted (record absent, no error) and reports
`voterKey`'s stored vote. -/
theorem claim_C8_witness :
    checkVoteStatus (honestRead trace2) 1 voterKey2 =
      { hasVoted := false, voteRecord := none } ∧
    checkVoteStatus (honestRead trace2) 1 voterKey =
      { hasVoted := true,
        voteRecord := some
          { voter := voterKey, pollId := 1, candidateIndex := 0,
            recordAddress := getVoteRecordPDA 1 voterKey } } := by
  refine ⟨(claim_C8 (honestRead trace2) 1 voterKey2
    { voter := voterKey, pollId := 1, candidateIndex := 0 }).1 (by decide),
    (claim_C8 (honestRead trace2) 1 voterKey
      { voter := voterKey, pollId := 1, candidateIndex := 0 }).2 (by decide)⟩

/-- C9: `parseSolanaError` maps each recognized raw ledger failure text
to one stable human-readable message and status — `already in use` /
`0x0` to the already-voted (AlreadyVoted) reply, `AccountNotFound` /
`Account does not exist` to the poll-not-found (PollNotFound) reply,
`insufficient funds` / `Insufficient` to the insufficient-balance
(InsufficientResources) reply, and `PollClosed`, `InvalidCandidate`,
`Unauthorized` to theirs, matching in that order of precedence — and any
unrecognized text is surfaced with status 500, truncated to at most 303
characters (300 plus the ellipsis). -/
theorem claim_C9 (msg : String) :
    ((includes msg "already in use" = true ∨ includes msg "0x0" = true) →
      parseSolanaError msg =
        ("This wallet has already voted in this poll.", 409))
    ∧ (includes msg "already in use" = false → includes msg "0x0" = false →
        (includes msg "AccountNotFound" = true ∨
          includes msg "Account does not exist" = true) →
        parseSolanaError msg = ("Poll not found. Check the Poll ID.", 404))
    ∧ (includes msg "already in use" = false → includes msg "0x0" = false →
        includes msg "AccountNotFound" = false →
        includes msg "Account does not exist" = false →
        (includes msg "insufficient funds" = true ∨
          includes msg "Insufficient" = true) →
        parseSolanaError msg =
          ("Insufficient SOL balance for this transaction.", 402))
    ∧ (includes msg "already in use" = false → includes msg "0x0" = false →
        includes msg "AccountNotFound" = false →
        includes msg "Account does not exist" = false →
        includes msg "insufficient funds" = false →
        includes msg "Insufficient" = false →
        includes msg "PollClosed" = true →
        parseSolanaError msg =
          ("This poll is closed and no longer accepting votes.", 403))
    ∧ (includes msg "already in use" = false → includes msg "0x0" = false →
        includes msg "AccountNotFound" = false →
        includes msg "Account does not exist" = false →
        includes msg "insufficient funds" = false →
        includes msg "Insufficient" = false →
        includes msg "PollClosed" = false →
        includes msg "InvalidCandidate" = true →
        parseSolanaError msg = ("Invalid candidate index.", 400))
    ∧ (includes msg "already in use" = false → includes msg "0x0" = false →
        includes msg "AccountNotFound" = false →
        includes msg "Account does not exist" = false →
        includes msg "insufficient funds" = false →
        includes msg "Insufficient" = false →
        includes msg "PollClosed" = false →
        includes msg "InvalidCandidate" = false →
        includes msg "Unauthorized" = true →
        parseSolanaError msg =
          ("Only the poll admin can perform this action.", 403))
    ∧ (includes msg "already in use" = false → includes msg "0x0" = false →
        includes msg "AccountNotFound" = false →
        includes msg "Account does not exist" = false →
        includes msg "insufficient funds" = false →
        includes msg "Insufficient" = false →
        includes msg "PollClosed" = false →
        includes msg "InvalidCandidate" = false →
        includes msg "Unauthorized" = false →
        includes msg "TooFewCandidates" = false →
        includes msg "TooManyCandidates" = false →
        includes msg "TitleTooLong" = false →
        includes msg "ADMIN_PRIVATE_KEY not configured" = false →
        parseSolanaError msg =
          (if msg.length > 300 then (msg.toList.take 300).asString ++ "..."
           else msg, 500) ∧
        (parseSolanaError msg).1.length ≤ max msg.length 303) := by
  refine ⟨?_, ?_, ?_, ?_, ?_, ?_, ?_⟩
  · rintro (h | h) <;> simp [parseSolanaError, h]
  · intro h1 h2 h3
    rcases h3 with h3 | h3 <;> simp [parseSolanaError, h1, h2, h3]
  · intro h1 h2 h3 h4 h5
    rcases h5 with h5 | h5 <;> simp [parseSolanaError, h1, h2, h3, h4, h5]
  · intro h1 h2 h3 h4 h5 h6 h7
    simp [parseSolanaError, h1, h2, h3, h4, h5, h6, h7]
  · intro h1 h2 h3 h4 h5 h6 h7 h8
    simp [parseSolanaError, h1, h2, h3, h4, h5, h6, h7, h8]
  · intro h1 h2 h3 h4 h5 h6 h7 h8 h9
    simp [parseSolanaError, h1, h2, h3, h4, h5, h6, h7, h8, h9]
  · intro h1 h2 h3 h4 h5 h6 h7 h8 h9 h10 h11 h12 h13
    have heq : parseSolanaError msg =
        (if msg.length > 300 then (msg.toList.take 300).asString ++ "..."
         else msg, 500) := by
      simp [parseSolanaError, h1, h2, h3, h4, h5, h6, h7, h8, h9, h10, h11,
        h12, h13]
    refine ⟨heq, ?_⟩
    rw [heq]
    by_cases hlen : msg.length > 300
    · rw [if_pos hlen]
      have hl : ((msg.toList.take 300).asString ++ "...").length =
          (msg.toList.take 300).length + 3 := by
        simp [String.length_append, List.length_asString]
        rfl
      simp only [hl, List.length_take]
      omega
    · rw [if_neg hlen]
      simp

/-- C9 witness: concrete raw ledger messages mapped through
`parseSolanaError`. -/
theorem claim_C9_witness :
    parseSolanaError "custom program error: 0x0" =
      ("This wallet has already voted in this poll.", 409) ∧
    parseSolanaError "Error: AccountNotFound" =
      ("Poll not found. Check the Poll ID.", 404) :=
  ⟨(claim_C9 "custom program error: 0x0").1 (Or.inr (by decide)),
   (claim_C9 "Error: AccountNotFound").2.1 (by decide) (by decide)
     (Or.inl (by decide))⟩

/-- C10: in `checkVoteStatus`, every failure of the VoteRecord read —
the RPC-failure case exactly like the record-absent case — yields
`{ hasVoted := false, voteRecord := none }`; consequently, when the
ledger state holds a VoteRecord for (pollId, voter) but the build
route's probe fails transiently, the duplicate-vote pre-check passes and
the route builds a transaction for a voter who has already voted. -/
theorem claim_C10 (read : List Nat → FetchResult VoteRecord) (σ : Ledger)
    (pid ci : Int) (v : List Nat) (r : VoteRecord) (bh : Nat) :
    (read (getVoteRecordPDA pid.toNat v) = .rpcError →
      checkVoteStatus read pid.toNat v =
        { hasVoted := false, voteRecord := none })
    ∧ (0 < pid → 0 ≤ ci → v.length = 32 →
        lookupKey σ.voteRecords (getVoteRecordPDA pid.toNat v) = some r →
        read (getVoteRecordPDA pid.toNat v) = .rpcError →
        voteBuildRoute read
          { pollId := pid, candidateIndex := ci, voter := some v } bh =
          .built (buildVoteTransaction pid.toNat ci v bh)) := by
  constructor
  · intro h
    exact checkVoteStatus_of_rpcError h
  · intro hpid hci hv hstored hread
    exact voteBuildRoute_builds hpid hci hv
      (by rw [checkVoteStatus_of_rpcError hread])

/-- C10 witness: with the concrete state `trace2` (where `voterKey` has
already voted) and a probe that fails with an RPC error, the build route
still builds. -/
theorem claim_C10_witness :
    lookupKey trace2.voteRecords (getVoteRecordPDA 1 voterKey) =
      some { voter := voterKey, pollId := 1, candidateIndex := 0 } ∧
    voteBuildRoute (fun _ => .rpcError)
      { pollId := 1, candidateIndex := 0, voter := some voterKey } 7 =
      .built (buildVoteTransaction 1 0 voterKey 7) :=
  ⟨by decide,
   (claim_C10 (fun _ => .rpcError) trace2 1 0 voterKey
     { voter := voterKey, pollId := 1, candidateIndex := 0 } 7).2
     (by norm_num) (by norm_num) (by decide) (by decide) rfl⟩

end SolVoting
